import Mathlib

/-!
Verification development for the ENTSO-E historic price data retriever.

The Python source is shallowly embedded as follows.

* A pandas `DataFrame` of raw hourly observations becomes `Frame`: a list of
  `Row`s (one per observation) together with the list of column names and the
  timezone of the `datetime` column (pandas keeps one timezone for the whole
  column; `none` models a naive column).  A `Row` stores the absolute instant
  of the observation in hours since an arbitrary epoch; localizing or
  converting a timestamp only changes its rendered representation, never the
  instant, exactly as `tz_localize('UTC')` / `tz_convert` do.
* Prices are exact rationals (`ℚ`); the source only adds, divides and compares
  them, so no floating-point behaviour is load-bearing for the claims treated
  here.
* The ENTSO-E client call inside `retrieve_day_ahead_prices` is an oracle
  `FetchFn`; `Except.error` models a raised exception, which the source
  catches, logs and turns into an empty frame.
* The `while` loop of `retrieve_data_in_chunks` is embedded with explicit
  fuel `(e - s).toNat`, which is enough iterations whenever `1 ≤ chunk_days`
  (the source default is 30; a non-positive `chunk_days` would loop forever
  in the source as well).
* `calculate_daily_metrics` mutates its argument in place
  (`df['date'] = df['datetime'].dt.date`), so its embedding returns the
  post-call state of the input frame alongside the metrics frame.
* pandas `groupby` sorts the group keys; this is mirrored by an insertion
  sort on the (date, country) keys.  Timezone offsets use the standard
  (winter) offset of each zone; no claim treated here depends on the offset
  values or on daylight-saving behaviour.
-/

/-- Total lookup in an association list with a default, modelling
`dict.get(key, default)`. -/
def lookupD (k : String) (tbl : List (String × String)) (d : String) : String :=
  (List.lookup k tbl).getD d

/-- Insert into a list sorted by `le` (helper for `sortLe`). -/
def insertLe {K : Type} (le : K → K → Bool) (x : K) : List K → List K
  | [] => [x]
  | y :: ys => if le x y then x :: y :: ys else y :: insertLe le x ys

/-- Insertion sort by a boolean comparison, modelling the sorted group keys
produced by pandas `groupby(..., sort=True)`. -/
def sortLe {K : Type} (le : K → K → Bool) : List K → List K
  | [] => []
  | x :: xs => insertLe le x (sortLe le xs)

/-- Code-point lexicographic comparison of character lists (helper for
`strLe`). -/
def charsLe : List Char → List Char → Bool
  | [], _ => true
  | _ :: _, [] => false
  | a :: as, b :: bs =>
    if a.toNat < b.toNat then true
    else if b.toNat < a.toNat then false
    else charsLe as bs

/-- Code-point lexicographic order on strings, the order Python uses when
pandas sorts string group keys. -/
def strLe (a b : String) : Bool := charsLe a.data b.data

/-- Minimum of two rationals, written with `if` so that it evaluates inside
the kernel. -/
def qmin (a b : ℚ) : ℚ := if a ≤ b then a else b

/-- Maximum of two rationals, written with `if` so that it evaluates inside
the kernel. -/
def qmax (a b : ℚ) : ℚ := if a ≤ b then b else a

/-- Minimum of a list of rationals (pandas `Series.min` on a non-empty group;
the `[]` case is junk, never reached on a group). -/
def listMin : List ℚ → ℚ
  | [] => 0
  | a :: l => l.foldl qmin a

/-- Maximum of a list of rationals (pandas `Series.max`). -/
def listMax : List ℚ → ℚ
  | [] => 0
  | a :: l => l.foldl qmax a

/-- Arithmetic mean of a list of rationals (pandas `Series.mean`), the
"weighted average" of the source. -/
def listMean (l : List ℚ) : ℚ := l.sum / l.length

/-! ## Chunked retriever (`retrieve_day_ahead_prices`, `retrieve_data_in_chunks`)

Timestamps handed around by the retriever are opaque integers here; the
oracle is queried with half-open bookkeeping boundaries `s`, `e` exactly as
the source passes `current_start`, `current_end`. -/

/-- The ENTSO-E client call: for a sub-range it returns the observations
`(timestamp, price)` or raises (modelled as `Except.error`). -/
def FetchFn : Type := Int → Int → Except String (List (Int × ℚ))

/-- `retrieve_day_ahead_prices`: queries the client and converts the result;
any exception is caught and an empty frame is returned (source lines
377-379). -/
def retrieve_day_ahead_prices (fetch : FetchFn) (s e : Int) : List (Int × ℚ) :=
  match fetch s e with
  | Except.ok xs => xs
  | Except.error _ => []

/-- The `while current_start < end_date` loop of `retrieve_data_in_chunks`,
with explicit fuel.  An empty chunk result is skipped (appending `[]` is the
same as not appending). -/
def chunksGo (fetch : FetchFn) (chunkDays : Int) : Nat → Int → Int → List (Int × ℚ)
  | 0, _, _ => []
  | fuel + 1, s, e =>
    if s < e then
      retrieve_day_ahead_prices fetch s (min (s + chunkDays) e) ++
        chunksGo fetch chunkDays fuel (min (s + chunkDays) e) e
    else []

/-- `retrieve_data_in_chunks`: split `[s, e)` into consecutive sub-ranges of
at most `chunkDays`, fetch each in turn, and concatenate the non-empty
results (`pd.concat`); no deduplication is performed. -/
def retrieve_data_in_chunks (fetch : FetchFn) (chunkDays : Int) (s e : Int) :
    List (Int × ℚ) :=
  chunksGo fetch chunkDays (e - s).toNat s e

/-- An oracle whose failures are replaced by successful empty results;
used to state that the source treats a failing sub-range exactly like an
empty one. -/
def errorsToEmpty (fetch : FetchFn) : FetchFn :=
  fun s e => Except.ok (retrieve_day_ahead_prices fetch s e)

/-! ## Data frames -/

/-- One raw observation row.  `instant` is the absolute time in hours;
`timezone` and `date` are the optional extra columns some pipeline stages
add. -/
structure Row where
  instant : Int
  price : ℚ
  country : String
  timezone : Option String
  date : Option Int
  deriving DecidableEq

/-- A raw-price DataFrame: the timezone of the `datetime` column (`none` =
naive), the rows, and the column names. -/
structure Frame where
  dtTz : Option String
  rows : List Row
  cols : List String
  deriving DecidableEq

/-- `COUNTRY_TIMEZONES` from the source, verbatim. -/
def COUNTRY_TIMEZONES : List (String × String) :=
  [("AL", "Europe/Tirane"), ("AT", "Europe/Vienna"), ("BA", "Europe/Sarajevo"),
   ("BE", "Europe/Brussels"), ("BG", "Europe/Sofia"), ("CH", "Europe/Zurich"),
   ("CZ", "Europe/Prague"), ("DE", "Europe/Berlin"), ("DK", "Europe/Copenhagen"),
   ("EE", "Europe/Tallinn"), ("ES", "Europe/Madrid"), ("FI", "Europe/Helsinki"),
   ("FR", "Europe/Paris"), ("GB", "Europe/London"), ("GR", "Europe/Athens"),
   ("HR", "Europe/Zagreb"), ("HU", "Europe/Budapest"), ("IE", "Europe/Dublin"),
   ("IT", "Europe/Rome"), ("LT", "Europe/Vilnius"), ("LU", "Europe/Luxembourg"),
   ("LV", "Europe/Riga"), ("ME", "Europe/Podgorica"), ("MK", "Europe/Skopje"),
   ("NL", "Europe/Amsterdam"), ("NO", "Europe/Oslo"), ("PL", "Europe/Warsaw"),
   ("PT", "Europe/Lisbon"), ("RO", "Europe/Bucharest"), ("RS", "Europe/Belgrade"),
   ("SE", "Europe/Stockholm"), ("SI", "Europe/Ljubljana"), ("SK", "Europe/Bratislava")]

/-- Standard (winter) UTC offset in hours of each zone name.  Only used to
render the calendar date of an instant; no claim depends on the values. -/
def tzOffsetTable : List (String × Int) :=
  [("UTC", 0), ("Europe/Tirane", 1), ("Europe/Vienna", 1), ("Europe/Sarajevo", 1),
   ("Europe/Brussels", 1), ("Europe/Sofia", 2), ("Europe/Zurich", 1),
   ("Europe/Prague", 1), ("Europe/Berlin", 1), ("Europe/Copenhagen", 1),
   ("Europe/Tallinn", 2), ("Europe/Madrid", 1), ("Europe/Helsinki", 2),
   ("Europe/Paris", 1), ("Europe/London", 0), ("Europe/Athens", 2),
   ("Europe/Zagreb", 1), ("Europe/Budapest", 1), ("Europe/Dublin", 0),
   ("Europe/Rome", 1), ("Europe/Vilnius", 2), ("Europe/Luxembourg", 1),
   ("Europe/Riga", 2), ("Europe/Podgorica", 1), ("Europe/Skopje", 1),
   ("Europe/Amsterdam", 1), ("Europe/Oslo", 1), ("Europe/Warsaw", 1),
   ("Europe/Lisbon", 0), ("Europe/Bucharest", 2), ("Europe/Belgrade", 1),
   ("Europe/Stockholm", 1), ("Europe/Ljubljana", 1), ("Europe/Bratislava", 1)]

/-- Offset used when rendering instants of a column with timezone `tz`
(a naive column renders the raw instant). -/
def tzOffsetHours (tz : Option String) : Int :=
  match tz with
  | none => 0
  | some s => ((List.lookup s tzOffsetTable).getD 0)

/-- Calendar day of an instant as rendered in the column timezone
(`df['datetime'].dt.date`). -/
def dayOf (dtTz : Option String) (instant : Int) : Int :=
  (instant + tzOffsetHours dtTz).fdiv 24

/-! ## Timezone conversion (`convert_to_local_timezone`) -/

/-- `tz_localize('UTC')` applied when the datetime column is naive: the
column is declared UTC, instants are unchanged. -/
def dtLocalizeUTC (f : Frame) : Frame :=
  if f.dtTz.isNone then { dtTz := some "UTC", rows := f.rows, cols := f.cols } else f

/-- `tz_convert(timezone)`: only the rendering timezone of the column
changes, never the instants. -/
def dtConvert (tzn : String) (f : Frame) : Frame :=
  { dtTz := some tzn, rows := f.rows, cols := f.cols }

/-- `df_local['timezone'] = timezone`: set the timezone info column on every
row, adding the column name if absent. -/
def addTimezoneCol (tzn : String) (f : Frame) : Frame :=
  { dtTz := f.dtTz,
    rows := f.rows.map (fun r => { r with timezone := some tzn }),
    cols := if f.cols.contains "timezone" then f.cols else f.cols ++ ["timezone"] }

/-- `convert_to_local_timezone` with an explicit timezone table: empty frames
are returned untouched; otherwise the frame is copied, its datetime column is
localized to UTC when naive, converted to `COUNTRY_TIMEZONES.get(country,
'UTC')`, and a timezone column is added. -/
def convertWithTable (tbl : List (String × String)) (f : Frame) (c : String) : Frame :=
  if f.rows.isEmpty then f
  else
    addTimezoneCol (lookupD c tbl "UTC")
      (dtConvert (lookupD c tbl "UTC") (dtLocalizeUTC f))

/-- `convert_to_local_timezone` of the source (with the source's table). -/
def convert_to_local_timezone (f : Frame) (c : String) : Frame :=
  convertWithTable COUNTRY_TIMEZONES f c

/-! ## Daily metrics (`calculate_daily_metrics`) -/

/-- A row of the metrics DataFrame produced by `calculate_daily_metrics`. -/
structure MetricRow where
  date : Int
  country : String
  min_price : ℚ
  max_price : ℚ
  weighted_avg : ℚ
  timezone : Option String
  deriving DecidableEq

/-- The metrics DataFrame: rows plus column names. -/
structure MetricsFrame where
  rows : List MetricRow
  cols : List String
  deriving DecidableEq

/-- `df['date'] = df['datetime'].dt.date`: add (or overwrite) the `date`
column, leaving every other column untouched. -/
def addDateCol (f : Frame) : Frame :=
  { dtTz := f.dtTz,
    rows := f.rows.map (fun r => { r with date := some (dayOf f.dtTz r.instant) }),
    cols := if f.cols.contains "date" then f.cols else f.cols ++ ["date"] }

/-- Grouping key of `df.groupby(['date', 'country'])`. -/
def metricKey (r : Row) : Int × String := (r.date.getD 0, r.country)

/-- Lexicographic order on (date, country) keys, as pandas sorts group keys. -/
def metricKeyLe (a b : Int × String) : Bool :=
  decide (a.1 < b.1) || (decide (a.1 = b.1) && strLe a.2 b.2)

/-- The sorted distinct group keys of a grouped frame. -/
def metricKeys (rows : List Row) : List (Int × String) :=
  sortLe metricKeyLe (rows.map metricKey).dedup

/-- The rows of one (date, country) group. -/
def groupRows (rows : List Row) (k : Int × String) : List Row :=
  rows.filter (fun r => metricKey r == k)

/-- One metrics row: min/max/mean of the group's prices, and, if the input
had a timezone column, the first timezone of that country
(`df.groupby('country')['timezone'].first()` merged back on country). -/
def mkMetricRow (f : Frame) (k : Int × String) : MetricRow :=
  { date := k.1, country := k.2,
    min_price := listMin ((groupRows f.rows k).map Row.price),
    max_price := listMax ((groupRows f.rows k).map Row.price),
    weighted_avg := listMean ((groupRows f.rows k).map Row.price),
    timezone :=
      if f.cols.contains "timezone" then
        (f.rows.filter (fun r => r.country == k.2)).findSome? Row.timezone
      else none }

/-- `calculate_daily_metrics`.  The source mutates its argument in place by
adding the `date` column before grouping, so the embedding returns the
post-call state of the input frame (first component) together with the
metrics frame (second component).  An empty input yields an empty
`pd.DataFrame()` and the input is not touched.  The three per-group
aggregations merged on (date, country) collapse to one row per sorted key. -/
def calculate_daily_metrics (f : Frame) : Frame × MetricsFrame :=
  if f.rows.isEmpty then (f, { rows := [], cols := [] })
  else
    (addDateCol f,
      { rows := (metricKeys (addDateCol f).rows).map (mkMetricRow (addDateCol f)),
        cols :=
          if f.cols.contains "timezone" then
            ["date", "country", "min_price", "max_price", "weighted_avg", "timezone"]
          else
            ["date", "country", "min_price", "max_price", "weighted_avg"] })

/-! ## Pattern analysis (`calculate_arbitrage_potential`) -/

/-- One row of the analysis input (the CSV already carries a precomputed
`date` column, which is the grouping key used by the analysis). -/
structure ARow where
  date : String
  price : ℚ
  deriving DecidableEq

/-- One row of the `daily_stats` frame of `calculate_arbitrage_potential`. -/
structure DailyStat where
  date : String
  min : ℚ
  max : ℚ
  mean : ℚ
  daily_spread : ℚ
  arbitrage_potential_mwh : ℚ
  arbitrage_potential_kwh : ℚ
  deriving DecidableEq

/-- Order on the grouping dates of `df.groupby('date')`. -/
def dateLe (a b : String) : Bool := strLe a b

/-- Sorted distinct dates of the analysis input. -/
def arbDates (rows : List ARow) : List String :=
  sortLe dateLe (rows.map ARow.date).dedup

/-- `calculate_arbitrage_potential`: per calendar day, min/max/mean of the
prices, `daily_spread = max - min`, and the spread in EUR/MWh and EUR/kWh. -/
def calculate_arbitrage_potential (rows : List ARow) : List DailyStat :=
  (arbDates rows).map (fun d =>
    { date := d,
      min := listMin ((rows.filter (fun r => r.date == d)).map ARow.price),
      max := listMax ((rows.filter (fun r => r.date == d)).map ARow.price),
      mean := listMean ((rows.filter (fun r => r.date == d)).map ARow.price),
      daily_spread :=
        listMax ((rows.filter (fun r => r.date == d)).map ARow.price) -
          listMin ((rows.filter (fun r => r.date == d)).map ARow.price),
      arbitrage_potential_mwh :=
        listMax ((rows.filter (fun r => r.date == d)).map ARow.price) -
          listMin ((rows.filter (fun r => r.date == d)).map ARow.price),
      arbitrage_potential_kwh :=
        (listMax ((rows.filter (fun r => r.date == d)).map ARow.price) -
          listMin ((rows.filter (fun r => r.date == d)).map ARow.price)) / 1000 })

/-! ## Tax-adjusted metrics, modelled from the spec

The repository's tests (`test_entso_retriever.py`) and the spec's §3/§4.3/§6
describe a metrics aggregator with per-unit-energy (`*_kwh`) columns and an
all-in consumer price per country, but the aggregator implementing them is
not among the provided sources; only `calculate_daily_metrics` above is, and
it stops at wholesale min/max/mean.  The definitions below model the missing
aggregator from the spec. -/

/-- Tax configuration of one country (spec §3 `TaxConfig`). -/
structure TaxConfig where
  energy_tax : ℚ
  renewable_energy_tax : ℚ
  vat_rate : ℚ
  deriving DecidableEq

/-- Rounding to 5 decimal places (spec §4.3 "rounded to a fixed decimal
precision (5 decimal places)"). -/
def round5 (x : ℚ) : ℚ := (round (x * 100000) : ℚ) / 100000

/-- Modelled from the spec: the all-in consumer price formula of §3,
`(wholesale_per_unit + energy_tax + renewable_energy_tax) × (1 + vat_rate)`,
rounded to 5 decimals. -/
def all_in_from (t : TaxConfig) (per_unit : ℚ) : ℚ :=
  round5 ((per_unit + t.energy_tax + t.renewable_energy_tax) * (1 + t.vat_rate))

/-- A metrics row with the per-unit and all-in columns of spec §6. -/
structure MetricRowTax where
  date : Int
  country : String
  min_price_mwh : ℚ
  max_price_mwh : ℚ
  weighted_avg_mwh : ℚ
  min_price_kwh : ℚ
  max_price_kwh : ℚ
  weighted_avg_kwh : ℚ
  weighted_avg_kwh_all_in_price : Option ℚ
  deriving DecidableEq

/-- Modelled from the spec: the daily metrics aggregator of §4.3 with the
kWh-derived columns (divide by 1000) and the optional all-in consumer price,
which is present exactly when a tax configuration exists for the group's
country (absent config ⇒ the field is absent, not zero).  The grouping is
the same (date, country) grouping as `calculate_daily_metrics`. -/
def calculate_daily_metrics_with_tax (taxTbl : List (String × TaxConfig))
    (f : Frame) : List MetricRowTax :=
  if f.rows.isEmpty then []
  else
    (metricKeys (addDateCol f).rows).map (fun k =>
      { date := k.1, country := k.2,
        min_price_mwh := listMin ((groupRows (addDateCol f).rows k).map Row.price),
        max_price_mwh := listMax ((groupRows (addDateCol f).rows k).map Row.price),
        weighted_avg_mwh := listMean ((groupRows (addDateCol f).rows k).map Row.price),
        min_price_kwh := listMin ((groupRows (addDateCol f).rows k).map Row.price) / 1000,
        max_price_kwh := listMax ((groupRows (addDateCol f).rows k).map Row.price) / 1000,
        weighted_avg_kwh := listMean ((groupRows (addDateCol f).rows k).map Row.price) / 1000,
        weighted_avg_kwh_all_in_price :=
          (List.lookup k.2 taxTbl).map (fun t =>
            all_in_from t (listMean ((groupRows (addDateCol f).rows k).map Row.price) / 1000)) })

/-! ## Concrete inputs used by witnesses and counterexamples -/

/-- A one-row raw frame (price 10 at instant 0 for NL). -/
def fr1 : Frame :=
  { dtTz := none, cols := ["datetime", "price", "country"],
    rows := [{ instant := 0, price := 10, country := "NL", timezone := none, date := none }] }

/-- The repository test's input: 24 hourly observations of one calendar day
with prices 10, 20, ..., 240 for NL. -/
def input24 : Frame :=
  { dtTz := none, cols := ["datetime", "price", "country"],
    rows := (List.range 24).map (fun i =>
      { instant := Int.ofNat i, price := ((10 * (i + 1) : ℕ) : ℚ), country := "NL",
        timezone := none, date := none }) }

/-- An empty raw frame. -/
def feC9 : Frame :=
  { dtTz := none, cols := ["datetime", "price", "country"], rows := [] }

/-- An oracle that fails with a non-retryable error on the sub-range starting
at 0 and succeeds elsewhere. -/
def fetchFailC3 : FetchFn :=
  fun s _ => if s = 0 then Except.error "authentication failure"
             else Except.ok [((30 : Int), (5 : ℚ))]

/-- An oracle returning one observation per unit of time over the inclusive
interval `[s, e]` (the boundary-inclusive behaviour the spec attributes to
the remote source). -/
def fetchInclC4 : FetchFn :=
  fun s e => Except.ok ((List.range ((e - s).toNat + 1)).map
    (fun i => (s + Int.ofNat i, (2 : ℚ))))

/-- An oracle returning one observation per unit of time over the half-open
interval `[s, e)`; it is additive over adjacent sub-ranges. -/
def fetchExclC4 : FetchFn :=
  fun s e => Except.ok ((List.range (e - s).toNat).map
    (fun i => (s + Int.ofNat i, (7 : ℚ))))

/-- A one-row frame whose single day has wholesale mean 50 EUR/MWh. -/
def fC2 : Frame :=
  { dtTz := none, cols := ["datetime", "price", "country"],
    rows := [{ instant := 0, price := 50, country := "NL", timezone := none, date := none }] }

/-- The tax configuration of the spec's literal case. -/
def taxTblC2 : List (String × TaxConfig) :=
  [("NL", { energy_tax := 1/100, renewable_energy_tax := 1/200, vat_rate := 21/100 })]

/-- The metrics-with-tax row produced for `fC2` under `taxTblC2`. -/
def m0C2 : MetricRowTax :=
  { date := 0, country := "NL", min_price_mwh := 50, max_price_mwh := 50,
    weighted_avg_mwh := 50, min_price_kwh := 1/20, max_price_kwh := 1/20,
    weighted_avg_kwh := 1/20, weighted_avg_kwh_all_in_price := some (1573/20000) }

/-- Analysis input with two days: one with distinct prices, one with equal
prices. -/
def arbRowsC8 : List ARow :=
  [{ date := "2022-01-01", price := 10 }, { date := "2022-01-01", price := 30 },
   { date := "2022-01-02", price := 7 }, { date := "2022-01-02", price := 7 }]

/-- The single metrics row produced for `input24`. -/
def mRow24 : MetricRow :=
  { date := 0, country := "NL", min_price := 10, max_price := 240,
    weighted_avg := 125, timezone := none }

/-- The first daily-stats row produced for `arbRowsC8`. -/
def stC8 : DailyStat :=
  { date := "2022-01-01", min := 10, max := 30, mean := 20, daily_spread := 20,
    arbitrage_potential_mwh := 20, arbitrage_potential_kwh := 1/50 }

/-! ## Helper lemmas -/

theorem mem_insertLe {K : Type} (le : K → K → Bool) (x a : K) (l : List K) :
    a ∈ insertLe le x l ↔ a = x ∨ a ∈ l := by
  induction l with
  | nil => simp [insertLe]
  | cons y ys ih =>
    by_cases h : le x y
    · simp [insertLe, h]
    · simp only [insertLe, h, Bool.false_eq_true, if_false, List.mem_cons, ih]
      tauto

theorem mem_sortLe {K : Type} (le : K → K → Bool) (a : K) (l : List K) :
    a ∈ sortLe le l ↔ a ∈ l := by
  induction l with
  | nil => simp [sortLe]
  | cons y ys ih => simp [sortLe, mem_insertLe, ih]

theorem qmin_le_left (a b : ℚ) : qmin a b ≤ a := by
  unfold qmin; split <;> linarith

theorem qmin_le_right (a b : ℚ) : qmin a b ≤ b := by
  unfold qmin; split <;> linarith

theorem qmin_eq_or (a b : ℚ) : qmin a b = a ∨ qmin a b = b := by
  unfold qmin; split <;> simp

theorem le_qmax_left (a b : ℚ) : a ≤ qmax a b := by
  unfold qmax; split <;> linarith

theorem le_qmax_right (a b : ℚ) : b ≤ qmax a b := by
  unfold qmax; split <;> linarith

theorem qmax_eq_or (a b : ℚ) : qmax a b = a ∨ qmax a b = b := by
  unfold qmax; split <;> simp

theorem foldl_qmin_le_init (a : ℚ) (l : List ℚ) : l.foldl qmin a ≤ a := by
  induction l generalizing a with
  | nil => simp
  | cons b t ih => exact le_trans (ih (qmin a b)) (qmin_le_left a b)

theorem foldl_qmin_le_mem (a x : ℚ) (l : List ℚ) (hx : x ∈ l) : l.foldl qmin a ≤ x := by
  induction l generalizing a with
  | nil => cases hx
  | cons b t ih =>
    rcases List.mem_cons.mp hx with h | h
    · subst h
      exact le_trans (foldl_qmin_le_init (qmin a x) t) (qmin_le_right a x)
    · exact ih (qmin a b) h

theorem foldl_qmin_eq_or_mem (a : ℚ) (l : List ℚ) :
    l.foldl qmin a = a ∨ l.foldl qmin a ∈ l := by
  induction l generalizing a with
  | nil => left; rfl
  | cons b t ih =>
    rcases ih (qmin a b) with h | h
    · rcases qmin_eq_or a b with hm | hm
      · left; rw [List.foldl_cons, h, hm]
      · right; rw [List.foldl_cons, h, hm]; exact List.mem_cons_self b t
    · right; exact List.mem_cons_of_mem b h

theorem le_foldl_qmax_init (a : ℚ) (l : List ℚ) : a ≤ l.foldl qmax a := by
  induction l generalizing a with
  | nil => simp
  | cons b t ih => exact le_trans (le_qmax_left a b) (ih (qmax a b))

theorem le_foldl_qmax_mem (a x : ℚ) (l : List ℚ) (hx : x ∈ l) : x ≤ l.foldl qmax a := by
  induction l generalizing a with
  | nil => cases hx
  | cons b t ih =>
    rcases List.mem_cons.mp hx with h | h
    · subst h
      exact le_trans (le_qmax_right a x) (le_foldl_qmax_init (qmax a x) t)
    · exact ih (qmax a b) h

theorem foldl_qmax_eq_or_mem (a : ℚ) (l : List ℚ) :
    l.foldl qmax a = a ∨ l.foldl qmax a ∈ l := by
  induction l generalizing a with
  | nil => left; rfl
  | cons b t ih =>
    rcases ih (qmax a b) with h | h
    · rcases qmax_eq_or a b with hm | hm
      · left; rw [List.foldl_cons, h, hm]
      · right; rw [List.foldl_cons, h, hm]; exact List.mem_cons_self b t
    · right; exact List.mem_cons_of_mem b h

theorem listMin_le (l : List ℚ) (x : ℚ) (hx : x ∈ l) : listMin l ≤ x := by
  cases l with
  | nil => cases hx
  | cons a t =>
    rcases List.mem_cons.mp hx with h | h
    · subst h; exact foldl_qmin_le_init x t
    · exact foldl_qmin_le_mem a x t h

theorem le_listMax (l : List ℚ) (x : ℚ) (hx : x ∈ l) : x ≤ listMax l := by
  cases l with
  | nil => cases hx
  | cons a t =>
    rcases List.mem_cons.mp hx with h | h
    · subst h; exact le_foldl_qmax_init x t
    · exact le_foldl_qmax_mem a x t h

theorem listMin_mem (l : List ℚ) (h : l ≠ []) : listMin l ∈ l := by
  cases l with
  | nil => exact absurd rfl h
  | cons a t =>
    rcases foldl_qmin_eq_or_mem a t with h1 | h1
    · show t.foldl qmin a ∈ a :: t
      rw [h1]; exact List.mem_cons_self a t
    · exact List.mem_cons_of_mem a h1

theorem listMax_mem (l : List ℚ) (h : l ≠ []) : listMax l ∈ l := by
  cases l with
  | nil => exact absurd rfl h
  | cons a t =>
    rcases foldl_qmax_eq_or_mem a t with h1 | h1
    · show t.foldl qmax a ∈ a :: t
      rw [h1]; exact List.mem_cons_self a t
    · exact List.mem_cons_of_mem a h1

theorem mul_length_le_sum (l : List ℚ) (m : ℚ) (h : ∀ x ∈ l, m ≤ x) :
    m * l.length ≤ l.sum := by
  induction l with
  | nil => simp
  | cons a t ih =>
    have ha := h a (List.mem_cons_self a t)
    have ht := ih (fun x hx => h x (List.mem_cons_of_mem a hx))
    rw [List.sum_cons, List.length_cons]
    push_cast
    ring_nf
    ring_nf at ht
    linarith

theorem sum_le_mul_length (l : List ℚ) (m : ℚ) (h : ∀ x ∈ l, x ≤ m) :
    l.sum ≤ m * l.length := by
  induction l with
  | nil => simp
  | cons a t ih =>
    have ha := h a (List.mem_cons_self a t)
    have ht := ih (fun x hx => h x (List.mem_cons_of_mem a hx))
    rw [List.sum_cons, List.length_cons]
    push_cast
    ring_nf
    ring_nf at ht
    linarith

theorem length_pos_q (l : List ℚ) (h : l ≠ []) : 0 < (l.length : ℚ) := by
  have := List.length_pos.mpr h
  exact_mod_cast this

theorem listMin_le_listMean (l : List ℚ) (h : l ≠ []) : listMin l ≤ listMean l := by
  have hlen := length_pos_q l h
  have hsum := mul_length_le_sum l (listMin l) (fun x hx => listMin_le l x hx)
  rw [listMean, le_div_iff₀ hlen]
  linarith

theorem listMean_le_listMax (l : List ℚ) (h : l ≠ []) : listMean l ≤ listMax l := by
  have hlen := length_pos_q l h
  have hsum := sum_le_mul_length l (listMax l) (fun x hx => le_listMax l x hx)
  rw [listMean, div_le_iff₀ hlen]
  linarith

theorem listMin_le_listMax (l : List ℚ) (h : l ≠ []) : listMin l ≤ listMax l :=
  le_trans (listMin_le l _ (listMax_mem l h)) (le_listMax l _ (listMax_mem l h))

theorem listMin_eq_listMax_iff (l : List ℚ) (h : l ≠ []) :
    listMin l = listMax l ↔ ∀ x ∈ l, ∀ y ∈ l, x = y := by
  constructor
  · intro he x hx y hy
    have h1 := listMin_le l x hx
    have h2 := le_listMax l x hx
    have h3 := listMin_le l y hy
    have h4 := le_listMax l y hy
    rw [he] at h1 h3
    linarith
  · intro hall
    exact hall _ (listMin_mem l h) _ (listMax_mem l h)

theorem mem_metricKeys (rows : List Row) (k : Int × String) :
    k ∈ metricKeys rows ↔ ∃ r ∈ rows, metricKey r = k := by
  rw [metricKeys, mem_sortLe, List.mem_dedup, List.mem_map]

theorem groupRows_ne_nil (rows : List Row) (k : Int × String)
    (h : ∃ r ∈ rows, metricKey r = k) : groupRows rows k ≠ [] := by
  obtain ⟨r, hr, hrk⟩ := h
  intro hnil
  have : r ∈ groupRows rows k := by
    rw [groupRows, List.mem_filter]
    exact ⟨hr, by simp [hrk]⟩
  rw [hnil] at this
  cases this

theorem group_prices_ne_nil (rows : List Row) (k : Int × String)
    (h : ∃ r ∈ rows, metricKey r = k) : (groupRows rows k).map Row.price ≠ [] := by
  have := groupRows_ne_nil rows k h
  simpa using this

theorem retrieve_errorsToEmpty_eq (fetch : FetchFn) (s e : Int) :
    retrieve_day_ahead_prices (errorsToEmpty fetch) s e =
      retrieve_day_ahead_prices fetch s e := rfl

theorem chunksGo_eq_fetch_of_additive (fetch : FetchFn) (d : Int) (hd : 1 ≤ d)
    (hadd : ∀ a b c : Int, a ≤ b → b ≤ c →
      retrieve_day_ahead_prices fetch a c =
        retrieve_day_ahead_prices fetch a b ++ retrieve_day_ahead_prices fetch b c) :
    ∀ (n : Nat) (s e : Int), (e - s).toNat ≤ n → s ≤ e →
      chunksGo fetch d n s e = retrieve_day_ahead_prices fetch s e := by
  have hempty : ∀ a : Int, retrieve_day_ahead_prices fetch a a = [] := by
    intro a
    have h := hadd a a a le_rfl le_rfl
    have hlen := congrArg List.length h
    rw [List.length_append] at hlen
    have : (retrieve_day_ahead_prices fetch a a).length = 0 := by omega
    exact List.eq_nil_of_length_eq_zero this
  intro n
  induction n with
  | zero =>
    intro s e hle hse
    have : e = s := by omega
    subst this
    rw [chunksGo, hempty]
  | succ n ih =>
    intro s e hle hse
    by_cases hlt : s < e
    · have hm1 : min (s + d) e ≤ e := min_le_right _ _
      have hm3 : s + 1 ≤ min (s + d) e := le_min (by omega) (by omega)
      rw [chunksGo, if_pos hlt, ih (min (s + d) e) e (by omega) hm1]
      exact (hadd s (min (s + d) e) e (by omega) hm1).symm
    · have : e = s := by omega
      subst this
      rw [chunksGo, if_neg hlt, hempty]

theorem retrieve_chunks_eq_fetch (fetch : FetchFn) (d : Int) (hd : 1 ≤ d)
    (hadd : ∀ a b c : Int, a ≤ b → b ≤ c →
      retrieve_day_ahead_prices fetch a c =
        retrieve_day_ahead_prices fetch a b ++ retrieve_day_ahead_prices fetch b c)
    (s e : Int) (hse : s ≤ e) :
    retrieve_data_in_chunks fetch d s e = retrieve_day_ahead_prices fetch s e :=
  chunksGo_eq_fetch_of_additive fetch d hd hadd (e - s).toNat s e le_rfl hse

theorem fetchExclC4_additive : ∀ a b c : Int, a ≤ b → b ≤ c →
    retrieve_day_ahead_prices fetchExclC4 a c =
      retrieve_day_ahead_prices fetchExclC4 a b ++
        retrieve_day_ahead_prices fetchExclC4 b c := by
  intro a b c hab hbc
  show ((List.range (c - a).toNat).map (fun i => (a + Int.ofNat i, (7 : ℚ)))) =
    ((List.range (b - a).toNat).map (fun i => (a + Int.ofNat i, (7 : ℚ)))) ++
      ((List.range (c - b).toNat).map (fun i => (b + Int.ofNat i, (7 : ℚ))))
  have hsplit : (c - a).toNat = (b - a).toNat + (c - b).toNat := by omega
  rw [hsplit, List.range_add, List.map_append, List.map_map]
  congr 1
  apply List.map_congr_left
  intro i _
  simp only [Function.comp_apply]
  congr 1
  simp only [Int.ofNat_eq_natCast]
  push_cast [Int.toNat_of_nonneg (show (0 : ℤ) ≤ b - a by omega)]
  ring

theorem mem_arbDates (rows : List ARow) (d : String) :
    d ∈ arbDates rows ↔ ∃ r ∈ rows, r.date = d := by
  rw [arbDates, mem_sortLe, List.mem_dedup, List.mem_map]

theorem arb_prices_ne_nil (rows : List ARow) (d : String)
    (h : ∃ r ∈ rows, r.date = d) :
    (rows.filter (fun r => r.date == d)).map ARow.price ≠ [] := by
  obtain ⟨r, hr, hrd⟩ := h
  intro hnil
  have hmem : r.price ∈ (rows.filter (fun r => r.date == d)).map ARow.price :=
    List.mem_map_of_mem _ (List.mem_filter.mpr ⟨hr, by simp [hrd]⟩)
  rw [hnil] at hmem
  cases hmem

theorem mem_arb_prices (rows : List ARow) (d : String) (x : ℚ) :
    x ∈ (rows.filter (fun r => r.date == d)).map ARow.price ↔
      ∃ r ∈ rows, r.date = d ∧ r.price = x := by
  rw [List.mem_map]
  constructor
  · rintro ⟨r, hr, rfl⟩
    have := List.mem_filter.mp hr
    exact ⟨r, this.1, by simpa using this.2, rfl⟩
  · rintro ⟨r, hr, hrd, rfl⟩
    exact ⟨r, List.mem_filter.mpr ⟨hr, by simp [hrd]⟩, rfl⟩

theorem isEmpty_false_of_ne_nil {α : Type} (l : List α) (h : l ≠ []) :
    l.isEmpty = false := by
  cases l with
  | nil => exact absurd rfl h
  | cons a t => rfl

theorem dtLocalizeUTC_rows (f : Frame) : (dtLocalizeUTC f).rows = f.rows := by
  rw [dtLocalizeUTC]
  split <;> rfl

theorem dtLocalizeUTC_cols (f : Frame) : (dtLocalizeUTC f).cols = f.cols := by
  rw [dtLocalizeUTC]
  split <;> rfl

theorem convertWithTable_of_ne_nil (tbl : List (String × String)) (f : Frame)
    (c : String) (hne : f.rows ≠ []) :
    convertWithTable tbl f c =
      { dtTz := some (lookupD c tbl "UTC"),
        rows := f.rows.map (fun r => { r with timezone := some (lookupD c tbl "UTC") }),
        cols := if f.cols.contains "timezone" then f.cols else f.cols ++ ["timezone"] } := by
  rw [convertWithTable, if_neg (by simp [isEmpty_false_of_ne_nil f.rows hne])]
  rw [addTimezoneCol, dtConvert, dtLocalizeUTC_rows, dtLocalizeUTC_cols]

/-! ## Claims -/

set_option maxRecDepth 40000 in
unseal Rat.mul Rat.add Rat.sub Rat.inv in
/-- Claim C1: the claim (and the repository's own test `test_calculate_metrics`)
expects `calculate_daily_metrics` to emit one row per (date, country) with
columns `min_price_mwh`, `max_price_mwh`, `weighted_avg_mwh` and kWh variants
equal to 1/1000 of them.  Evaluating the source on the test's own input
(24 hourly prices 10, 20, ..., 240 for NL on one day) shows the code emits
exactly one row with the correct wholesale numbers 10 / 240 / 125 but under
the column names `min_price` / `max_price` / `weighted_avg`, and no
`min_price_kwh` (or any other kWh) column at all: the code contradicts its
own test. -/
theorem C1_metrics_columns_eval :
    (calculate_daily_metrics input24).2.rows =
      [{ date := 0, country := "NL", min_price := 10, max_price := 240,
         weighted_avg := 125, timezone := none }] ∧
      (calculate_daily_metrics input24).2.cols =
        ["date", "country", "min_price", "max_price", "weighted_avg"] ∧
      ((calculate_daily_metrics input24).2.cols.contains "min_price_kwh") = false := by
  decide

/-- Claim C2: in the spec-modelled aggregator with tax support, every
metrics row of a country that has a tax configuration carries
`(wholesale_per_unit + energy_tax + renewable_energy_tax) × (1 + vat_rate)`
rounded to 5 decimals as its all-in consumer price. -/
theorem C2_all_in_formula (taxTbl : List (String × TaxConfig)) (f : Frame)
    (m : MetricRowTax) (t : TaxConfig)
    (hm : m ∈ calculate_daily_metrics_with_tax taxTbl f)
    (ht : List.lookup m.country taxTbl = some t) :
    m.weighted_avg_kwh_all_in_price =
      some (round5 ((m.weighted_avg_mwh / 1000 + t.energy_tax +
        t.renewable_energy_tax) * (1 + t.vat_rate))) := by
  unfold calculate_daily_metrics_with_tax at hm
  by_cases he : f.rows.isEmpty
  · rw [if_pos he] at hm; cases hm
  · rw [if_neg he] at hm
    obtain ⟨k, hk, rfl⟩ := List.mem_map.mp hm
    have ht2 : List.lookup k.2 taxTbl = some t := ht
    show (List.lookup k.2 taxTbl).map _ = _
    rw [ht2]
    rfl

unseal Rat.mul Rat.add Rat.sub Rat.inv in
/-- Claim C2 witness: a frame whose single day has wholesale mean 50 EUR/MWh
under energy_tax = 0.01, renewable_tax = 0.005, vat_rate = 0.21 yields the
all-in price 0.07865. -/
theorem C2_all_in_formula_witness :
    m0C2 ∈ calculate_daily_metrics_with_tax taxTblC2 fC2 ∧
      m0C2.weighted_avg_kwh_all_in_price = some (7865 / 100000) := by
  refine ⟨by decide, ?_⟩
  have h := C2_all_in_formula taxTblC2 fC2 m0C2
    { energy_tax := 1/100, renewable_energy_tax := 1/200, vat_rate := 21/100 }
    (by decide) (by decide)
  rw [h]
  decide

/-- Claim C3 counterexample: with an oracle that fails with a non-retryable
error on the first sub-range and succeeds on the second, the chunked
retrieval does not fail: it continues with the remaining sub-interval and
returns its observations, contradicting the claim that the whole retrieval
fails with a RetrievalError identifying the failing sub-range. -/
theorem C3_counterexample :
    retrieve_data_in_chunks fetchFailC3 30 0 60 = [(30, 5)] ∧
      retrieve_data_in_chunks fetchFailC3 30 0 60 ≠ [] := by
  decide

/-- Claim C3 as amended: a sub-interval whose request fails (with any error,
retryable or not) is treated exactly like a sub-interval that returned no
data — the error is caught, the sub-interval contributes nothing, the
retrieval continues with the remaining sub-intervals, and no error is ever
propagated.  Formally, replacing every oracle failure by a successful empty
result does not change the result of the chunked retrieval. -/
theorem C3_amended_errors_as_empty (fetch : FetchFn) (d s e : Int) :
    retrieve_data_in_chunks (errorsToEmpty fetch) d s e =
      retrieve_data_in_chunks fetch d s e := by
  unfold retrieve_data_in_chunks
  generalize (e - s).toNat = n
  induction n generalizing s with
  | zero => rfl
  | succ n ih =>
    by_cases h : s < e
    · simp only [chunksGo, if_pos h, retrieve_errorsToEmpty_eq, ih]
    · simp only [chunksGo, if_neg h]

/-- Claim C4 counterexample: with a boundary-inclusive oracle, the assembled
series of a single chunked retrieval contains the chunk-boundary timestamp
twice — assembly performs no deduplication — and retrieving `[0, 2)` in one
call differs from retrieving `[0, 1)` then `[1, 2)` and concatenating. -/
theorem C4_counterexample :
    ((retrieve_data_in_chunks fetchInclC4 1 0 2).map Prod.fst).count 1 = 2 ∧
      retrieve_data_in_chunks fetchInclC4 30 0 2 ≠
        retrieve_data_in_chunks fetchInclC4 30 0 1 ++
          retrieve_data_in_chunks fetchInclC4 30 1 2 := by
  decide

/-- Claim C4 as amended: `retrieve_data_in_chunks` performs no
deduplication; it returns the plain concatenation of the chunk results.
Consequently the split-equals-whole property holds exactly when the oracle's
results are additive over adjacent sub-ranges (each sub-request covers its
half-open sub-range with no boundary overlap): then retrieving `[A, C)` in
one chunked call yields the same observation list as retrieving `[A, B)`
then `[B, C)` and concatenating, for any `B` between `A` and `C`. -/
theorem C4_amended_split_concat (fetch : FetchFn) (d : Int) (hd : 1 ≤ d)
    (hadd : ∀ a b c : Int, a ≤ b → b ≤ c →
      retrieve_day_ahead_prices fetch a c =
        retrieve_day_ahead_prices fetch a b ++ retrieve_day_ahead_prices fetch b c)
    (A B C : Int) (hAB : A ≤ B) (hBC : B ≤ C) :
    retrieve_data_in_chunks fetch d A C =
      retrieve_data_in_chunks fetch d A B ++ retrieve_data_in_chunks fetch d B C := by
  rw [retrieve_chunks_eq_fetch fetch d hd hadd A C (le_trans hAB hBC),
      retrieve_chunks_eq_fetch fetch d hd hadd A B hAB,
      retrieve_chunks_eq_fetch fetch d hd hadd B C hBC]
  exact hadd A B C hAB hBC

/-- Claim C4 amended witness: the additive half-open oracle at `A = 0`,
`B = 1`, `C = 2` with the default 30-day chunk span. -/
theorem C4_amended_split_concat_witness :
    retrieve_data_in_chunks fetchExclC4 30 0 2 =
      retrieve_data_in_chunks fetchExclC4 30 0 1 ++
        retrieve_data_in_chunks fetchExclC4 30 1 2 :=
  C4_amended_split_concat fetchExclC4 30 (by decide) fetchExclC4_additive
    0 1 2 (by decide) (by decide)

/-- Claim C5 counterexample: "US" has no entry in `COUNTRY_TIMEZONES`, yet
`convert_to_local_timezone` does not fail on it: it proceeds, substituting
the default timezone UTC (the converted frame carries timezone "UTC"),
contradicting the claim that a missing entry is a hard input-validation
failure and that a default timezone is never substituted. -/
theorem C5_counterexample :
    List.lookup "US" COUNTRY_TIMEZONES = none ∧
      (convert_to_local_timezone fr1 "US").rows.map Row.timezone = [some "UTC"] ∧
      (convert_to_local_timezone fr1 "US").dtTz = some "UTC" := by
  decide

/-- Claim C5 as amended: for every country code without an entry in the
timezone table, `convert_to_local_timezone` silently falls back to the
default timezone "UTC" (`COUNTRY_TIMEZONES.get(country_code, 'UTC')`) and
proceeds normally; it never fails. -/
theorem C5_amended_default_utc (f : Frame) (c : String) (hne : f.rows ≠ [])
    (hc : List.lookup c COUNTRY_TIMEZONES = none) :
    (convert_to_local_timezone f c).dtTz = some "UTC" ∧
      (convert_to_local_timezone f c).rows.map Row.timezone =
        f.rows.map (fun _ => some "UTC") := by
  have hC : lookupD c COUNTRY_TIMEZONES "UTC" = "UTC" := by
    rw [lookupD, hc]; rfl
  rw [convert_to_local_timezone, convertWithTable_of_ne_nil _ _ _ hne, hC]
  refine ⟨rfl, ?_⟩
  rw [List.map_map]
  rfl

/-- Claim C5 amended witness: the unknown code "US" on a non-empty frame. -/
theorem C5_amended_default_utc_witness :
    (convert_to_local_timezone fr1 "US").dtTz = some "UTC" ∧
      (convert_to_local_timezone fr1 "US").rows.map Row.timezone =
        fr1.rows.map (fun _ => some "UTC") :=
  C5_amended_default_utc fr1 "US" (by decide) (by decide)

/-- Claim C6: timezone conversion of a non-empty series preserves the number
of observations, every price, every absolute instant, and every country
value; only the rendering timezone (and the added timezone info column)
change. -/
theorem C6_prices_preserved (f : Frame) (c : String) (hne : f.rows ≠ []) :
    (convert_to_local_timezone f c).rows.length = f.rows.length ∧
      (convert_to_local_timezone f c).rows.map Row.price = f.rows.map Row.price ∧
      (convert_to_local_timezone f c).rows.map Row.instant = f.rows.map Row.instant ∧
      (convert_to_local_timezone f c).rows.map Row.country = f.rows.map Row.country := by
  rw [convert_to_local_timezone, convertWithTable_of_ne_nil _ _ _ hne]
  refine ⟨by rw [List.length_map], ?_, ?_, ?_⟩ <;> rw [List.map_map] <;> rfl

/-- Claim C6 witness: the one-row frame `fr1` converted for NL. -/
theorem C6_prices_preserved_witness :
    (convert_to_local_timezone fr1 "NL").rows.length = fr1.rows.length ∧
      (convert_to_local_timezone fr1 "NL").rows.map Row.price = fr1.rows.map Row.price ∧
      (convert_to_local_timezone fr1 "NL").rows.map Row.instant = fr1.rows.map Row.instant ∧
      (convert_to_local_timezone fr1 "NL").rows.map Row.country = fr1.rows.map Row.country :=
  C6_prices_preserved fr1 "NL" (by decide)

/-- Claim C7 counterexample: `calculate_daily_metrics` does not leave its
input unchanged: on a one-row frame the post-call input frame differs from
the original — a `date` column has been added in place
(`df['date'] = df['datetime'].dt.date` without a copy). -/
theorem C7_counterexample :
    (calculate_daily_metrics fr1).1 ≠ fr1 ∧
      (calculate_daily_metrics fr1).1.cols = ["datetime", "price", "country", "date"] ∧
      fr1.cols = ["datetime", "price", "country"] := by
  decide

/-- Claim C7 as amended: computing daily metrics mutates the input frame
only by adding (or overwriting) the `date` column: all prices, instants,
countries, timezone values, the pre-existing columns and the column
timezone are unchanged. -/
theorem C7_amended_adds_date_col (f : Frame) (hne : f.rows ≠ []) :
    (calculate_daily_metrics f).1.rows.map Row.price = f.rows.map Row.price ∧
      (calculate_daily_metrics f).1.rows.map Row.instant = f.rows.map Row.instant ∧
      (calculate_daily_metrics f).1.rows.map Row.country = f.rows.map Row.country ∧
      (calculate_daily_metrics f).1.rows.map Row.timezone = f.rows.map Row.timezone ∧
      (calculate_daily_metrics f).1.cols =
        (if f.cols.contains "date" then f.cols else f.cols ++ ["date"]) ∧
      (calculate_daily_metrics f).1.dtTz = f.dtTz := by
  rw [calculate_daily_metrics,
    if_neg (by simp [isEmpty_false_of_ne_nil f.rows hne])]
  refine ⟨?_, ?_, ?_, ?_, rfl, rfl⟩ <;>
    · show ((addDateCol f).rows.map _) = _
      rw [addDateCol, List.map_map]
      rfl

/-- Claim C7 amended witness: the one-row frame `fr1`. -/
theorem C7_amended_adds_date_col_witness :
    (calculate_daily_metrics fr1).1.rows.map Row.price = fr1.rows.map Row.price ∧
      (calculate_daily_metrics fr1).1.rows.map Row.instant = fr1.rows.map Row.instant ∧
      (calculate_daily_metrics fr1).1.rows.map Row.country = fr1.rows.map Row.country ∧
      (calculate_daily_metrics fr1).1.rows.map Row.timezone = fr1.rows.map Row.timezone ∧
      (calculate_daily_metrics fr1).1.cols =
        (if fr1.cols.contains "date" then fr1.cols else fr1.cols ++ ["date"]) ∧
      (calculate_daily_metrics fr1).1.dtTz = fr1.dtTz :=
  C7_amended_adds_date_col fr1 (by decide)

/-- Claim C8: every daily row of the arbitrage-potential computation has a
non-negative spread `max - min`, and the spread is zero exactly when all
observations of that calendar day have equal price. -/
theorem C8_spread_nonneg_iff (rows : List ARow) (st : DailyStat)
    (hst : st ∈ calculate_arbitrage_potential rows) :
    0 ≤ st.daily_spread ∧
      (st.daily_spread = 0 ↔
        ∀ r ∈ rows, r.date = st.date → ∀ r2 ∈ rows, r2.date = st.date →
          r.price = r2.price) := by
  unfold calculate_arbitrage_potential at hst
  obtain ⟨d, hd, rfl⟩ := List.mem_map.mp hst
  have hdm : ∃ r ∈ rows, r.date = d := (mem_arbDates rows d).mp hd
  have hne := arb_prices_ne_nil rows d hdm
  constructor
  · show 0 ≤ listMax ((rows.filter (fun r => r.date == d)).map ARow.price) -
      listMin ((rows.filter (fun r => r.date == d)).map ARow.price)
    have := listMin_le_listMax _ hne
    linarith
  · show listMax ((rows.filter (fun r => r.date == d)).map ARow.price) -
      listMin ((rows.filter (fun r => r.date == d)).map ARow.price) = 0 ↔ _
    constructor
    · intro h0 r hr hrd r2 hr2 hr2d
      have heq : listMin ((rows.filter (fun r => r.date == d)).map ARow.price) =
          listMax ((rows.filter (fun r => r.date == d)).map ARow.price) := by
        linarith
      have hall := (listMin_eq_listMax_iff _ hne).mp heq
      have hp1 : r.price ∈ (rows.filter (fun r => r.date == d)).map ARow.price :=
        (mem_arb_prices rows d r.price).mpr ⟨r, hr, hrd, rfl⟩
      have hp2 : r2.price ∈ (rows.filter (fun r => r.date == d)).map ARow.price :=
        (mem_arb_prices rows d r2.price).mpr ⟨r2, hr2, hr2d, rfl⟩
      exact hall _ hp1 _ hp2
    · intro hall
      have heq : listMin ((rows.filter (fun r => r.date == d)).map ARow.price) =
          listMax ((rows.filter (fun r => r.date == d)).map ARow.price) := by
        apply (listMin_eq_listMax_iff _ hne).mpr
        intro x hx y hy
        obtain ⟨r, hr, hrd, rfl⟩ := (mem_arb_prices rows d x).mp hx
        obtain ⟨r2, hr2, hr2d, rfl⟩ := (mem_arb_prices rows d y).mp hy
        exact hall r hr hrd r2 hr2 hr2d
      linarith

unseal Rat.mul Rat.add Rat.sub Rat.inv in
/-- Claim C8 witness: the two-day input `arbRowsC8`, whose first day has
spread 20 over distinct prices. -/
theorem C8_spread_nonneg_iff_witness :
    stC8 ∈ calculate_arbitrage_potential arbRowsC8 ∧
      (0 ≤ stC8.daily_spread ∧
        (stC8.daily_spread = 0 ↔
          ∀ r ∈ arbRowsC8, r.date = stC8.date →
            ∀ r2 ∈ arbRowsC8, r2.date = stC8.date → r.price = r2.price)) :=
  ⟨by decide, C8_spread_nonneg_iff arbRowsC8 stC8 (by decide)⟩

/-- Claim C9: `convert_to_local_timezone` on an empty series returns the
series unchanged, for every timezone table: no error is raised and no
timezone lookup is performed (the result does not depend on the table). -/
theorem C9_empty_identity (tbl : List (String × String)) (f : Frame)
    (c : String) (h : f.rows = []) :
    convertWithTable tbl f c = f := by
  rw [convertWithTable, h]
  rfl

/-- Claim C9 witness: the empty frame `feC9` under a non-trivial table. -/
theorem C9_empty_identity_witness :
    convertWithTable [("NL", "Europe/Amsterdam")] feC9 "NL" = feC9 :=
  C9_empty_identity [("NL", "Europe/Amsterdam")] feC9 "NL" rfl

/-- Claim C10: in every row of the metrics frame produced by
`calculate_daily_metrics`, the minimum is at most the weighted average and
the weighted average is at most the maximum, all three being computed over
the same non-empty (date, country) group. -/
theorem C10_min_le_avg_le_max (f : Frame) (m : MetricRow)
    (hm : m ∈ (calculate_daily_metrics f).2.rows) :
    m.min_price ≤ m.weighted_avg ∧ m.weighted_avg ≤ m.max_price := by
  unfold calculate_daily_metrics at hm
  by_cases he : f.rows.isEmpty
  · rw [if_pos he] at hm; cases hm
  · rw [if_neg he] at hm
    obtain ⟨k, hk, rfl⟩ := List.mem_map.mp hm
    have hkm : ∃ r ∈ (addDateCol f).rows, metricKey r = k :=
      (mem_metricKeys _ _).mp hk
    have hne := group_prices_ne_nil (addDateCol f).rows k hkm
    exact ⟨listMin_le_listMean _ hne, listMean_le_listMax _ hne⟩

set_option maxRecDepth 40000 in
unseal Rat.mul Rat.add Rat.sub Rat.inv in
/-- Claim C10 witness: the single metrics row of `input24`, where
10 ≤ 125 ≤ 240. -/
theorem C10_min_le_avg_le_max_witness :
    mRow24 ∈ (calculate_daily_metrics input24).2.rows ∧
      (mRow24.min_price ≤ mRow24.weighted_avg ∧
        mRow24.weighted_avg ≤ mRow24.max_price) :=
  ⟨by decide, C10_min_le_avg_le_max input24 mRow24 (by decide)⟩
